import Mathlib

set_option autoImplicit false

/-!
Shallow embedding of `src/generate.py` (bulk image generator).

The program's effectful pieces are modelled explicitly:

* the provider call `client.models.generate_images(...)` becomes an oracle
  `provider : Nat → CallResult` mapping the 0-based attempt index to either a
  raised exception or a response carrying a list of images;
* file writes (`open(img_path, "wb")` / `f.write`) become an oracle
  `writeFails : Nat → String → Bool` telling whether writing a given file on a
  given attempt raises, plus an explicit ordered log of the writes performed;
* `time.sleep(wait)` becomes an ordered log of the waits requested;
* `datetime.now().strftime("%Y-%m-%d_%H-%M-%S")` becomes `formatTimestamp`
  over a second-resolution `DateTime` record.
-/

namespace MassImageGen

/-- One generated image: its byte buffer (`img.image.image_bytes`). -/
structure Image where
  bytes : List Nat
  deriving Repr, DecidableEq

/-- Result of one invocation of `client.models.generate_images`: either the
call raises, or it returns a response whose `generated_images` field holds a
(possibly empty) list of images. -/
inductive CallResult where
  | err
  | ok (images : List Image)
  deriving Repr, DecidableEq

/-- The file name built by the save loop for the `j`-th image (0-based `j`) of
prompt `name`: the Python expression is the f-string interpolation of `name`,
then `suffix`, then `.png`, where `suffix` interpolates `j + 1` after an
underscore if `images_per_prompt > 1` and is empty otherwise
(`src/generate.py:157-158`). -/
def imageFileName (name : String) (images_per_prompt : Nat) (j : Nat) : String :=
  name ++ (if images_per_prompt > 1 then "_" ++ toString (j + 1) else "") ++ ".png"

/-- The inner `for j, img in enumerate(response.generated_images)` save loop
(`src/generate.py:156-161`), starting at index `j`.  Returns the `(file, bytes)`
writes performed in order, and `true` iff the loop completed without raising.
When a write raises, the writes already performed are kept and the exception
propagates to the enclosing `except` handler. -/
def writeImages (writeFails : String → Bool) (name : String)
    (images_per_prompt : Nat) : List Image → Nat → List (String × List Nat) × Bool
  | [], _ => ([], true)
  | img :: rest, j =>
      let path := imageFileName name images_per_prompt j
      if writeFails path then ([], false)
      else
        let r := writeImages writeFails name images_per_prompt rest (j + 1)
        ((path, img.bytes) :: r.1, r.2)

/-- Observable per-prompt effect of the retry loop: number of provider
invocations, sleeps requested (in order), file writes performed (in order),
the amounts added to the `success` and `failed` counters, and the names
appended to `failed_names`. -/
structure Outcome where
  calls : Nat
  sleeps : List Nat
  writes : List (String × List Nat)
  succ : Nat
  fail : Nat
  names : List String
  deriving Repr, DecidableEq

/-- The zero outcome (a loop that runs no iteration). -/
def Outcome.zero : Outcome := ⟨0, [], [], 0, 0, []⟩

/-- The `for attempt in range(3): try ... except` retry loop for one prompt
(`src/generate.py:145-178`), with `fuel` iterations remaining and `attempt`
the current 0-based loop index; the loop is entered with `fuel = 3` and
`attempt = 0`.  The `try` body performs the provider call, then either saves
the images and increments `success`, or (empty response) increments `failed`,
then breaks; any exception from the body is caught: below attempt index 2 the
handler sleeps `(attempt + 1) * 3` and retries, at attempt index 2 it
increments `failed` and records the name. -/
def attemptLoop (provider : Nat → CallResult) (writeFails : Nat → String → Bool)
    (name : String) (images_per_prompt : Nat) : Nat → Nat → Outcome
  | 0, _ => Outcome.zero
  | fuel + 1, attempt =>
    let onExc : List (String × List Nat) → Outcome := fun partialWrites =>
      if attempt < 2 then
        let wait := (attempt + 1) * 3
        let rest := attemptLoop provider writeFails name images_per_prompt fuel (attempt + 1)
        ⟨1 + rest.calls, wait :: rest.sleeps, partialWrites ++ rest.writes,
          rest.succ, rest.fail, rest.names⟩
      else
        ⟨1, [], partialWrites, 0, 1, [name]⟩
    match provider attempt with
    | CallResult.err => onExc []
    | CallResult.ok images =>
      if images.isEmpty then
        ⟨1, [], [], 0, 1, [name]⟩
      else
        let w := writeImages (writeFails attempt) name images_per_prompt images 0
        if w.2 then ⟨1, [], w.1, 1, 0, []⟩
        else onExc w.1

/-- The `for i, (name, prompt) in enumerate(prompts.items(), 1)` loop of
`generate_images` (`src/generate.py:141-178`): each prompt, in iteration
order, runs its own retry loop.  `provider` maps the prompt text and the
attempt index to the call's result. -/
def runPrompts (provider : String → Nat → CallResult)
    (writeFails : Nat → String → Bool) (images_per_prompt : Nat) :
    List (String × String) → List (String × Outcome)
  | [] => []
  | (name, prompt) :: rest =>
      (name, attemptLoop (provider prompt) writeFails name images_per_prompt 3 0) ::
        runPrompts provider writeFails images_per_prompt rest

/-- The run's final tally: `total`, `success`, `failed`, `failed_names`
(`src/generate.py:134-137`, as read at the summary). -/
structure RunReport where
  total : Nat
  success : Nat
  failed : Nat
  failed_names : List String
  deriving Repr, DecidableEq

/-- Result of `generate_images` relative to the run's output directory: the
final report, the per-prompt outcomes in prompt order, and the flat ordered
log of file writes (paths relative to `output_dir`). -/
structure RunResult where
  report : RunReport
  outcomes : List (String × Outcome)
  writes : List (String × List Nat)
  deriving Repr, DecidableEq

/-- `generate_images(client, model, prompts, images_per_prompt)`
(`src/generate.py:128-186`), abstracted over the provider and filesystem
oracles.  The output-directory naming is handled separately by `outputDir`
since the loop's behaviour does not depend on the timestamp. -/
def generate_images (provider : String → Nat → CallResult)
    (writeFails : Nat → String → Bool) (images_per_prompt : Nat)
    (prompts : List (String × String)) : RunResult :=
  let outs := runPrompts provider writeFails images_per_prompt prompts
  { report :=
      { total := prompts.length
        success := (outs.map (fun o => o.2.succ)).sum
        failed := (outs.map (fun o => o.2.fail)).sum
        failed_names := outs.flatMap (fun o => o.2.names) }
    outcomes := outs
    writes := outs.flatMap (fun o => o.2.writes) }

/-- The summary block printed after the loop (`src/generate.py:181-186`):
the `Completed:` line always, the `Failed:` line only when `failed_names` is
non-empty, the `Output:` line always. -/
def summaryLines (r : RunReport) (output_dir : String) : List String :=
  ("  Completed: " ++ toString r.success ++ "/" ++ toString r.total ++
      " succeeded, " ++ toString r.failed ++ " failed") ::
    (if r.failed_names.isEmpty then [] else
      ["  Failed:    " ++ String.intercalate ", " r.failed_names]) ++
    ["  Output:    " ++ output_dir]

/-- Final filesystem content at a path after a run: the last write to that
path wins (later writes overwrite earlier ones). -/
def lastWrite (writes : List (String × List Nat)) (path : String) : Option (List Nat) :=
  match writes with
  | [] => none
  | (p, b) :: rest =>
      match lastWrite rest path with
      | some b2 => some b2
      | none => if p = path then some b else none

/-- The distinct file names present in the output directory after a run, in
first-write order. -/
def filesWritten (writes : List (String × List Nat)) : List String :=
  (writes.map Prod.fst).dedup

/-! ### Output directory naming (`src/generate.py:130-131`) -/

/-- `OUTPUT_BASE = SCRIPT_DIR / "generated_images"`, kept relative here. -/
def OUTPUT_BASE : String := "generated_images"

/-- A wall-clock instant at second resolution, as consumed by
`strftime("%Y-%m-%d_%H-%M-%S")`. -/
structure DateTime where
  year : Nat
  month : Nat
  day : Nat
  hour : Nat
  minute : Nat
  second : Nat
  deriving Repr, DecidableEq

/-- The decimal digit character for `n % 10`-style arguments below 10. -/
def digitChar : Nat → Char
  | 0 => '0'
  | 1 => '1'
  | 2 => '2'
  | 3 => '3'
  | 4 => '4'
  | 5 => '5'
  | 6 => '6'
  | 7 => '7'
  | 8 => '8'
  | _ => '9'

/-- Two-digit zero-padded decimal rendering (`%m`, `%d`, `%H`, `%M`, `%S`). -/
def pad2 (n : Nat) : String := String.mk [digitChar (n / 10 % 10), digitChar (n % 10)]

/-- Four-digit zero-padded decimal rendering (`%Y` for years below 10000). -/
def pad4 (n : Nat) : String :=
  String.mk [digitChar (n / 1000 % 10), digitChar (n / 100 % 10),
    digitChar (n / 10 % 10), digitChar (n % 10)]

/-- `datetime.now().strftime("%Y-%m-%d_%H-%M-%S")` (`src/generate.py:130`). -/
def formatTimestamp (dt : DateTime) : String :=
  pad4 dt.year ++ "-" ++ pad2 dt.month ++ "-" ++ pad2 dt.day ++ "_" ++
    pad2 dt.hour ++ "-" ++ pad2 dt.minute ++ "-" ++ pad2 dt.second

/-- `output_dir = OUTPUT_BASE / timestamp` (`src/generate.py:131`). -/
def outputDir (dt : DateTime) : String := OUTPUT_BASE ++ "/" ++ formatTimestamp dt

/-- Absolute location of a run-relative file: `output_dir / rel`. -/
def fullPath (dt : DateTime) (rel : String) : String := outputDir dt ++ "/" ++ rel

/-- The file writes of a run started at instant `dt`, under their absolute
paths inside the run's timestamped output directory. -/
def runWithTimestamp (dt : DateTime) (provider : String → Nat → CallResult)
    (writeFails : Nat → String → Bool) (images_per_prompt : Nat)
    (prompts : List (String × String)) : List (String × List Nat) :=
  (generate_images provider writeFails images_per_prompt prompts).writes.map
    (fun w => (fullPath dt w.1, w.2))

/-! ### Model discovery (`src/generate.py:27-51`) -/

/-- Whether the first list is a leading prefix of the second. -/
def charPrefixTest : List Char → List Char → Bool
  | [], _ => true
  | _ :: _, [] => false
  | a :: as, b :: bs => a == b && charPrefixTest as bs

/-- Python substring test `pat in s`. -/
def containsSub (s pat : String) : Bool :=
  go pat.data s.data
where
  go (pat : List Char) : List Char → Bool
  | [] => charPrefixTest pat []
  | c :: rest => charPrefixTest pat (c :: rest) || go pat rest

/-- Python `s.removeprefix(p)`: drop the leading occurrence of `p` if present. -/
def removePre (p s : String) : String :=
  if charPrefixTest p.data s.data then String.mk (s.data.drop p.data.length) else s

/-- Python `str.lower` on one character (code points, ASCII range). -/
def lowerChar (c : Char) : Char :=
  if 65 ≤ c.toNat ∧ c.toNat ≤ 90 then Char.ofNat (c.toNat + 32) else c

/-- Python `s.lower()`. -/
def lowerStr (s : String) : String := String.mk (s.data.map lowerChar)

/-- Python `a <= b` on strings: lexicographic comparison of code points. -/
def lexLe : List Char → List Char → Bool
  | [], _ => true
  | _ :: _, [] => false
  | a :: as, b :: bs =>
      if a.toNat < b.toNat then true
      else if b.toNat < a.toNat then false
      else lexLe as bs

/-- The string order used by Python `sorted`. -/
def strLe (a b : String) : Prop := lexLe a.data b.data = true

instance : DecidableRel strLe := fun a b => instDecidableEqBool (lexLe a.data b.data) true

/-- The hard-coded fallback model list (`src/generate.py:46-51`). -/
def fallbackModels : List String :=
  ["imagen-3.0-generate-001", "imagen-3.0-generate-002",
   "imagen-4.0-generate-001", "imagen-4.0-ultra-generate-001"]

/-- The `imagen_models` accumulator of the discovery loop
(`src/generate.py:31-37`): each model's `name or ""`, with a `models/` prefix
stripped, kept when its lowercase form contains `imagen`. -/
def imagenModels (names : List (Option String)) : List String :=
  (names.map fun n => removePre "models/" (n.getD "")).filter
    fun s => containsSub (lowerStr s) "imagen"

/-- Python `sorted(set(l))`: the distinct elements in ascending order. -/
def sortedSet (l : List String) : List String :=
  l.dedup.insertionSort strLe

/-- `fetch_image_models(client)` (`src/generate.py:27-51`).  `listing` is the
outcome of iterating `client.models.list()`: an exception, or the `name`
fields of the listed models (`None` allowed).  An exception anywhere in the
`try` block discards the partial accumulator and falls through to the
fallback, as does an empty accumulator. -/
def fetch_image_models (listing : Except Unit (List (Option String))) : List String :=
  match listing with
  | Except.error _ => fallbackModels
  | Except.ok names =>
      let ms := imagenModels names
      if ms.isEmpty then fallbackModels else sortedSet ms

/-! ### Helper lemmas -/

theorem attemptLoop_allErr (provider : Nat → CallResult) (wf : Nat → String → Bool)
    (name : String) (ipp : Nat) (hp : ∀ a, provider a = CallResult.err) :
    attemptLoop provider wf name ipp 3 0 = ⟨3, [3, 6], [], 0, 1, [name]⟩ := by
  simp [attemptLoop, hp]

theorem attemptLoop_delta (provider : Nat → CallResult) (wf : Nat → String → Bool)
    (name : String) (ipp : Nat) :
    ∀ fuel attempt, 3 ≤ attempt + fuel → attempt ≤ 2 →
      (attemptLoop provider wf name ipp fuel attempt).succ +
        (attemptLoop provider wf name ipp fuel attempt).fail = 1 := by
  intro fuel
  induction fuel with
  | zero => intro attempt h1 h2; omega
  | succ n ih =>
    intro attempt h1 h2
    rw [attemptLoop]
    cases hp : provider attempt with
    | err =>
      simp only
      by_cases ha : attempt < 2
      · simp only [ha, if_true]
        have := ih (attempt + 1) (by omega) (by omega)
        simpa using this
      · simp [ha]
    | ok images =>
      simp only
      by_cases he : images.isEmpty
      · simp [he]
      · simp only [he, if_false]
        by_cases hw : (writeImages (wf attempt) name ipp images 0).2
        · simp [hw]
        · by_cases ha : attempt < 2
          · simp only [hw, ha, if_true, if_false]
            have := ih (attempt + 1) (by omega) (by omega)
            simpa using this
          · simp [hw, ha]

theorem runPrompts_eq_map (provider : String → Nat → CallResult)
    (wf : Nat → String → Bool) (ipp : Nat) (prompts : List (String × String)) :
    runPrompts provider wf ipp prompts =
      prompts.map (fun np => (np.1, attemptLoop (provider np.2) wf np.1 ipp 3 0)) := by
  induction prompts with
  | nil => rfl
  | cons x rest ih => cases x; simp [runPrompts, ih]

theorem sum_delta (provider : String → Nat → CallResult)
    (wf : Nat → String → Bool) (ipp : Nat) (prompts : List (String × String)) :
    ((runPrompts provider wf ipp prompts).map (fun o => o.2.succ)).sum +
      ((runPrompts provider wf ipp prompts).map (fun o => o.2.fail)).sum =
      prompts.length := by
  induction prompts with
  | nil => rfl
  | cons x rest ih =>
    cases x with
    | mk name text =>
      have hd := attemptLoop_delta (provider text) wf name ipp 3 0 (by omega) (by omega)
      simp only [runPrompts, List.map_cons, List.sum_cons, List.length_cons]
      omega

theorem writeImages_ok (wf : String → Bool) (name : String) (ipp : Nat)
    (hwf : ∀ p, wf p = false) :
    ∀ (imgs : List Image) (j : Nat),
      writeImages wf name ipp imgs j =
        (imgs.mapIdx (fun k img => (imageFileName name ipp (j + k), img.bytes)), true) := by
  intro imgs
  induction imgs with
  | nil => intro j; rfl
  | cons img rest ih =>
    intro j
    simp [writeImages, hwf, ih (j + 1), List.mapIdx_cons]
    have harg : (fun (k : Nat) (img : Image) => (imageFileName name ipp (j + 1 + k), img.bytes)) =
        (fun (i : Nat) (img : Image) => (imageFileName name ipp (j + (i + 1)), img.bytes)) := by
      funext k img
      have : j + 1 + k = j + (k + 1) := by omega
      rw [this]
    rw [harg]

theorem attemptLoop_failFailOk (provider : Nat → CallResult) (wf : Nat → String → Bool)
    (name : String) (ipp : Nat) (imgs : List Image)
    (h0 : provider 0 = CallResult.err) (h1 : provider 1 = CallResult.err)
    (h2 : provider 2 = CallResult.ok imgs) (hne : imgs ≠ [])
    (hw : (writeImages (wf 2) name ipp imgs 0).2 = true) :
    attemptLoop provider wf name ipp 3 0 =
      ⟨3, [3, 6], (writeImages (wf 2) name ipp imgs 0).1, 1, 0, []⟩ := by
  have he : imgs.isEmpty = false := by simpa using hne
  simp [attemptLoop, h0, h1, h2, he, hw]

theorem attemptLoop_emptyFirst (provider : Nat → CallResult) (wf : Nat → String → Bool)
    (name : String) (ipp : Nat) (h0 : provider 0 = CallResult.ok []) :
    attemptLoop provider wf name ipp 3 0 = ⟨1, [], [], 0, 1, [name]⟩ := by
  simp [attemptLoop, h0]

theorem attemptLoop_okFirst (provider : Nat → CallResult) (wf : Nat → String → Bool)
    (name : String) (ipp : Nat) (imgs : List Image)
    (h0 : provider 0 = CallResult.ok imgs) (hne : imgs ≠ [])
    (hw : (writeImages (wf 0) name ipp imgs 0).2 = true) :
    attemptLoop provider wf name ipp 3 0 =
      ⟨1, [], (writeImages (wf 0) name ipp imgs 0).1, 1, 0, []⟩ := by
  have he : imgs.isEmpty = false := by simpa using hne
  simp [attemptLoop, h0, he, hw]

theorem attemptLoop_writeFail (provider : Nat → CallResult) (wf : Nat → String → Bool)
    (name : String) (ipp : Nat) (imgs : List Image)
    (hok : ∀ a, provider a = CallResult.ok imgs) (hne : imgs ≠ [])
    (hwf : ∀ a, wf a (imageFileName name ipp 0) = true) :
    attemptLoop provider wf name ipp 3 0 = ⟨3, [3, 6], [], 0, 1, [name]⟩ := by
  have he : imgs.isEmpty = false := by simpa using hne
  have hw : ∀ a, writeImages (wf a) name ipp imgs 0 = ([], false) := by
    intro a
    cases imgs with
    | nil => simp at hne
    | cons img rest => simp [writeImages, hwf a]
  simp [attemptLoop, hok, he, hw]

theorem writeImages_paths (wf : String → Bool) (name : String) (ipp : Nat) :
    ∀ (imgs : List Image) (j : Nat) (w : String × List Nat),
      w ∈ (writeImages wf name ipp imgs j).1 → ∃ k, w.1 = imageFileName name ipp k := by
  intro imgs
  induction imgs with
  | nil => intro j w hw; simp [writeImages] at hw
  | cons img rest ih =>
    intro j w hw
    simp only [writeImages] at hw
    by_cases hf : wf (imageFileName name ipp j)
    · simp [hf] at hw
    · simp only [hf, Bool.false_eq_true, if_false, List.mem_cons] at hw
      rcases hw with h | h
      · exact ⟨j, by rw [h]⟩
      · exact ih (j + 1) w h

theorem attemptLoop_paths (provider : Nat → CallResult) (wf : Nat → String → Bool)
    (name : String) (ipp : Nat) :
    ∀ (fuel attempt : Nat) (w : String × List Nat),
      w ∈ (attemptLoop provider wf name ipp fuel attempt).writes →
        ∃ k, w.1 = imageFileName name ipp k := by
  intro fuel
  induction fuel with
  | zero => intro attempt w hw; simp [attemptLoop, Outcome.zero] at hw
  | succ n ih =>
    intro attempt w hw
    rw [attemptLoop] at hw
    cases hp : provider attempt with
    | err =>
      rw [hp] at hw
      simp only at hw
      by_cases ha : attempt < 2
      · simp only [ha, if_true, List.nil_append] at hw
        exact ih (attempt + 1) w hw
      · simp [ha] at hw
    | ok images =>
      rw [hp] at hw
      simp only at hw
      by_cases he : images.isEmpty
      · simp [he] at hw
      · simp only [he, Bool.false_eq_true, if_false] at hw
        by_cases hwr : (writeImages (wf attempt) name ipp images 0).2
        · simp only [hwr, if_true] at hw
          exact writeImages_paths (wf attempt) name ipp images 0 w hw
        · by_cases ha : attempt < 2
          · simp only [hwr, ha, if_true, if_false] at hw
            rcases List.mem_append.1 hw with h | h
            · exact writeImages_paths (wf attempt) name ipp images 0 w h
            · exact ih (attempt + 1) w h
          · simp only [hwr, ha, if_false] at hw
            exact writeImages_paths (wf attempt) name ipp images 0 w hw
theorem lexLe_total : ∀ as bs : List Char, lexLe as bs = true ∨ lexLe bs as = true := by
  intro as
  induction as with
  | nil => intro bs; left; rfl
  | cons a as ih =>
    intro bs
    cases bs with
    | nil => right; rfl
    | cons b bs =>
      simp only [lexLe]
      by_cases h1 : a.toNat < b.toNat
      · left; simp [h1]
      · by_cases h2 : b.toNat < a.toNat
        · right; simp [h2, h1]
        · simpa [h1, h2] using ih bs

theorem lexLe_trans : ∀ as bs cs : List Char,
    lexLe as bs = true → lexLe bs cs = true → lexLe as cs = true := by
  intro as
  induction as with
  | nil => intro bs cs _ _; rfl
  | cons a as ih =>
    intro bs cs hab hbc
    cases bs with
    | nil => simp [lexLe] at hab
    | cons b bs =>
      cases cs with
      | nil => simp [lexLe] at hbc
      | cons c cs =>
        simp only [lexLe] at hab hbc ⊢
        by_cases h3 : b.toNat < a.toNat
        · simp [h3, show ¬ a.toNat < b.toNat by omega] at hab
        by_cases h4 : c.toNat < b.toNat
        · simp [h4, show ¬ b.toNat < c.toNat by omega] at hbc
        by_cases h1 : a.toNat < b.toNat
        · have hac : a.toNat < c.toNat := by omega
          simp [hac]
        by_cases h2 : b.toNat < c.toNat
        · have hac : a.toNat < c.toNat := by omega
          simp [hac]
        · have h5 : ¬ a.toNat < c.toNat := by omega
          have h6 : ¬ c.toNat < a.toNat := by omega
          simp [h1, h3] at hab
          simp [h2, h4] at hbc
          simp [h5, h6]
          exact ih bs cs hab hbc

instance : IsTotal String strLe := ⟨fun a b => lexLe_total a.data b.data⟩

instance : IsTrans String strLe := ⟨fun a b c => lexLe_trans a.data b.data c.data⟩

theorem fetch_nonempty (listing : Except Unit (List (Option String))) :
    fetch_image_models listing ≠ [] := by
  cases listing with
  | error e => simp [fetch_image_models, fallbackModels]
  | ok names =>
    by_cases h : (imagenModels names).isEmpty
    · simp [fetch_image_models, h, fallbackModels]
    · have he : (imagenModels names).isEmpty = false := by simpa using h
      simp only [fetch_image_models, he, Bool.false_eq_true, if_false, sortedSet]
      intro hcon
      have hlen := List.length_insertionSort strLe (imagenModels names).dedup
      rw [hcon] at hlen
      simp only [List.length_nil] at hlen
      have hnil : (imagenModels names).dedup = [] := List.length_eq_zero.1 hlen.symm
      rw [List.dedup_eq_nil] at hnil
      simp [hnil] at he

theorem fmt_data (dt : DateTime) :
    (formatTimestamp dt).data =
      [digitChar (dt.year / 1000 % 10), digitChar (dt.year / 100 % 10),
       digitChar (dt.year / 10 % 10), digitChar (dt.year % 10), '-',
       digitChar (dt.month / 10 % 10), digitChar (dt.month % 10), '-',
       digitChar (dt.day / 10 % 10), digitChar (dt.day % 10), '_',
       digitChar (dt.hour / 10 % 10), digitChar (dt.hour % 10), '-',
       digitChar (dt.minute / 10 % 10), digitChar (dt.minute % 10), '-',
       digitChar (dt.second / 10 % 10), digitChar (dt.second % 10)] := rfl

theorem digitChar_inj (a b : Nat) (ha : a < 10) (hb : b < 10)
    (h : digitChar a = digitChar b) : a = b := by
  interval_cases a <;> interval_cases b <;> first | rfl | (exfalso; revert h; decide)

theorem fmt_inj (dt1 dt2 : DateTime)
    (hy1 : dt1.year < 10000) (hmo1 : dt1.month < 100) (hd1 : dt1.day < 100)
    (hh1 : dt1.hour < 100) (hmi1 : dt1.minute < 100) (hs1 : dt1.second < 100)
    (hy2 : dt2.year < 10000) (hmo2 : dt2.month < 100) (hd2 : dt2.day < 100)
    (hh2 : dt2.hour < 100) (hmi2 : dt2.minute < 100) (hs2 : dt2.second < 100)
    (heq : (formatTimestamp dt1).data = (formatTimestamp dt2).data) : dt1 = dt2 := by
  rw [fmt_data, fmt_data] at heq
  simp only [List.cons.injEq, and_true] at heq
  have key : ∀ a b : Nat, digitChar (a % 10) = digitChar (b % 10) → a % 10 = b % 10 :=
    fun a b h => digitChar_inj _ _ (Nat.mod_lt _ (by norm_num)) (Nat.mod_lt _ (by norm_num)) h
  obtain ⟨e1, e2, e3, e4, _, e5, e6, _, e7, e8, _, e9, e10, _, e11, e12, _, e13, e14⟩ := heq
  have y1 := key _ _ e1
  have y2 := key _ _ e2
  have y3 := key _ _ e3
  have y4 := key _ _ e4
  have m1 := key _ _ e5
  have m2 := key _ _ e6
  have d1 := key _ _ e7
  have d2 := key _ _ e8
  have hh1' := key _ _ e9
  have hh2' := key _ _ e10
  have mi1 := key _ _ e11
  have mi2 := key _ _ e12
  have s1 := key _ _ e13
  have s2 := key _ _ e14
  cases dt1
  cases dt2
  simp only [DateTime.mk.injEq]
  simp only at *
  refine ⟨by omega, by omega, by omega, by omega, by omega, by omega⟩

theorem fmt_len (dt : DateTime) : (formatTimestamp dt).data.length = 19 := by
  rw [fmt_data]; rfl

theorem fullPath_disjoint (dt1 dt2 : DateTime) (p1 p2 : String)
    (hts : formatTimestamp dt1 ≠ formatTimestamp dt2) :
    fullPath dt1 p1 ≠ fullPath dt2 p2 := by
  intro h
  apply hts
  have hd := congrArg String.data h
  simp only [fullPath, outputDir, String.data_append, List.append_assoc] at hd
  have hd2 := List.append_cancel_left hd
  have hd3 := List.append_cancel_left hd2
  have := List.append_inj hd3 (by rw [fmt_len, fmt_len])
  exact String.ext this.1

theorem writeImages_ipp1 (wf : String → Bool) (name : String) (hwf : ∀ p, wf p = false) :
    ∀ (imgs : List Image) (j : Nat),
      writeImages wf name 1 imgs j = (imgs.map fun img => (name ++ ".png", img.bytes), true) := by
  intro imgs
  induction imgs with
  | nil => intro j; rfl
  | cons img rest ih =>
    intro j
    have hfn : imageFileName name 1 j = name ++ ".png" := by simp [imageFileName]
    simp [writeImages, hwf, hfn, ih (j + 1)]

theorem dedup_const_map (c : String) :
    ∀ (l : List Image), l ≠ [] → (l.map fun _ => c).dedup = [c] := by
  intro l
  induction l with
  | nil => intro h; simp at h
  | cons a rest ih =>
    intro _
    cases rest with
    | nil => simp
    | cons r rs =>
      have hm : c ∈ (r :: rs).map fun _ => c := by simp
      simp only [List.map_cons] at *
      rw [List.dedup_cons_of_mem hm]
      exact ih (by simp)

theorem lastWrite_const (c : String) : ∀ imgs : List Image,
    lastWrite (imgs.map fun img => (c, img.bytes)) c = imgs.getLast?.map Image.bytes := by
  intro imgs
  induction imgs with
  | nil => rfl
  | cons img rest ih =>
    simp only [List.map_cons, lastWrite, ih]
    cases rest with
    | nil => simp [lastWrite]
    | cons r rs =>
      rw [List.getLast?_cons_cons]
      cases h : (r :: rs).getLast? with
      | none => simp at h
      | some x => simp

theorem runPrompts_append (provider : String → Nat → CallResult)
    (wf : Nat → String → Bool) (ipp : Nat) (l1 l2 : List (String × String)) :
    runPrompts provider wf ipp (l1 ++ l2) =
      runPrompts provider wf ipp l1 ++ runPrompts provider wf ipp l2 := by
  simp [runPrompts_eq_map]

theorem runPrompts_allErr (provider : String → Nat → CallResult)
    (wf : Nat → String → Bool) (ipp : Nat)
    (hp : ∀ text a, provider text a = CallResult.err) (prompts : List (String × String)) :
    runPrompts provider wf ipp prompts =
      prompts.map fun np => (np.1, ⟨3, [3, 6], [], 0, 1, [np.1]⟩) := by
  rw [runPrompts_eq_map]
  apply List.map_congr_left
  intro np _
  rw [attemptLoop_allErr (provider np.2) wf np.1 ipp (hp np.2)]

theorem mapped_report (F : String × String → Outcome)
    (hsucc : ∀ np, (F np).succ = 0) (hfail : ∀ np, (F np).fail = 1)
    (hnames : ∀ np, (F np).names = [np.1]) :
    ∀ l : List (String × String),
      ((l.map fun np => (np.1, F np)).map (fun o => o.2.succ)).sum = 0 ∧
      ((l.map fun np => (np.1, F np)).map (fun o => o.2.fail)).sum = l.length ∧
      (l.map fun np => (np.1, F np)).flatMap (fun o => o.2.names) = l.map Prod.fst := by
  intro l
  induction l with
  | nil => exact ⟨rfl, rfl, rfl⟩
  | cons x rest ih =>
    obtain ⟨ih1, ih2, ih3⟩ := ih
    refine ⟨?_, ?_, ?_⟩
    · rw [List.map_cons, List.map_cons, List.sum_cons, hsucc, ih1]
    · rw [List.map_cons, List.map_cons, List.sum_cons, hfail, ih2, List.length_cons]
      omega
    · rw [List.map_cons, List.flatMap_cons, hnames, ih3, List.map_cons]
      rfl

/-! ### Claims -/

/-- C1: for every non-empty prompt set and a provider call that raises on every
invocation, the run finishes with `failed = total` and `success = 0`,
`failed_names` lists every prompt name in original iteration order, every
prompt's retry loop makes exactly 3 provider calls, and every prompt's sleeps
are `[3, 6]` (3 after the first failed attempt, 6 after the second, none after
the third), summing to 9 time-units. -/
theorem claim_all_raising (provider : String → Nat → CallResult)
    (wf : Nat → String → Bool) (ipp : Nat) (prompts : List (String × String))
    (_hne : prompts ≠ []) (hp : ∀ text a, provider text a = CallResult.err) :
    (generate_images provider wf ipp prompts).report.failed =
        (generate_images provider wf ipp prompts).report.total ∧
    (generate_images provider wf ipp prompts).report.success = 0 ∧
    (generate_images provider wf ipp prompts).report.failed_names = prompts.map Prod.fst ∧
    ∀ o ∈ (generate_images provider wf ipp prompts).outcomes,
      o.2.calls = 3 ∧ o.2.sleeps = [3, 6] ∧ o.2.sleeps.sum = 9 := by
  have houts := runPrompts_allErr provider wf ipp hp prompts
  have hrep := mapped_report (fun np => ⟨3, [3, 6], [], 0, 1, [np.1]⟩)
    (fun _ => rfl) (fun _ => rfl) (fun _ => rfl) prompts
  simp only [generate_images]
  rw [houts]
  refine ⟨?_, hrep.1, hrep.2.2, ?_⟩
  · rw [hrep.2.1]
  · intro o ho
    rcases List.mem_map.1 ho with ⟨np, _, hnp⟩
    rw [← hnp]
    exact ⟨rfl, rfl, rfl⟩

/-- C1 witness: two prompts, a provider that always raises. -/
theorem claim_all_raising_witness :
    ([("cat", "a cat"), ("dog", "a dog")] : List (String × String)) ≠ [] ∧
    (generate_images (fun _ _ => CallResult.err) (fun _ _ => false) 1
        [("cat", "a cat"), ("dog", "a dog")]).report.failed = 2 ∧
    (generate_images (fun _ _ => CallResult.err) (fun _ _ => false) 1
        [("cat", "a cat"), ("dog", "a dog")]).report.success = 0 ∧
    (generate_images (fun _ _ => CallResult.err) (fun _ _ => false) 1
        [("cat", "a cat"), ("dog", "a dog")]).report.failed_names = ["cat", "dog"] := by
  have h := claim_all_raising (fun _ _ => CallResult.err) (fun _ _ => false) 1
    [("cat", "a cat"), ("dog", "a dog")] (by decide) (fun _ _ => rfl)
  exact ⟨by decide, h.1.trans (by decide), h.2.1, h.2.2.1.trans (by decide)⟩

/-- C2: for every prompt set and every combination of provider and filesystem
behaviours, the finalized report satisfies `success + failed = total`. -/
theorem claim_counters_invariant (provider : String → Nat → CallResult)
    (wf : Nat → String → Bool) (ipp : Nat) (prompts : List (String × String)) :
    (generate_images provider wf ipp prompts).report.success +
      (generate_images provider wf ipp prompts).report.failed =
      (generate_images provider wf ipp prompts).report.total := by
  simp only [generate_images]
  exact sum_delta provider wf ipp prompts

/-- C2 witness: a concrete mixed run (one success, one empty response). -/
theorem claim_counters_invariant_witness :
    (generate_images
        (fun text _ => if text = "a cat" then CallResult.ok [⟨[7]⟩] else CallResult.ok [])
        (fun _ _ => false) 1 [("cat", "a cat"), ("dog", "a dog")]).report.success +
      (generate_images
        (fun text _ => if text = "a cat" then CallResult.ok [⟨[7]⟩] else CallResult.ok [])
        (fun _ _ => false) 1 [("cat", "a cat"), ("dog", "a dog")]).report.failed =
      (generate_images
        (fun text _ => if text = "a cat" then CallResult.ok [⟨[7]⟩] else CallResult.ok [])
        (fun _ _ => false) 1 [("cat", "a cat"), ("dog", "a dog")]).report.total ∧
    (generate_images
        (fun text _ => if text = "a cat" then CallResult.ok [⟨[7]⟩] else CallResult.ok [])
        (fun _ _ => false) 1 [("cat", "a cat"), ("dog", "a dog")]).report.total = 2 :=
  ⟨claim_counters_invariant _ _ 1 _, by decide⟩

/-- C3: a prompt whose provider call returns successfully but with an empty
image sequence is counted as failed with its name recorded, its retry loop
makes exactly 1 provider call (no retry for an empty-but-non-erroring result),
and the run continues with the remaining prompts unchanged. -/
theorem claim_empty_response (provider : String → Nat → CallResult)
    (wf : Nat → String → Bool) (ipp : Nat) (name text : String)
    (pre post : List (String × String))
    (h0 : provider text 0 = CallResult.ok []) :
    (generate_images provider wf ipp (pre ++ (name, text) :: post)).outcomes =
      runPrompts provider wf ipp pre ++
        (name, ⟨1, [], [], 0, 1, [name]⟩) :: runPrompts provider wf ipp post ∧
    name ∈ (generate_images provider wf ipp (pre ++ (name, text) :: post)).report.failed_names := by
  have hmid : attemptLoop (provider text) wf name ipp 3 0 = ⟨1, [], [], 0, 1, [name]⟩ :=
    attemptLoop_emptyFirst (provider text) wf name ipp h0
  have houts : runPrompts provider wf ipp (pre ++ (name, text) :: post) =
      runPrompts provider wf ipp pre ++
        (name, ⟨1, [], [], 0, 1, [name]⟩) :: runPrompts provider wf ipp post := by
    rw [runPrompts_append, runPrompts, hmid]
  refine ⟨by simpa [generate_images] using houts, ?_⟩
  simp only [generate_images]
  rw [houts]
  refine List.mem_flatMap.2 ⟨(name, ⟨1, [], [], 0, 1, [name]⟩), ?_, by simp⟩
  exact List.mem_append.2 (Or.inr (List.mem_cons_self _ _))

/-- C3 witness: empty response for `cat`, success for `dog`. -/
theorem claim_empty_response_witness :
    ((fun text (_ : Nat) => if text = "a cat" then CallResult.ok [] else CallResult.ok [⟨[7]⟩])
        "a cat" 0 = CallResult.ok []) ∧
    (generate_images
        (fun text _ => if text = "a cat" then CallResult.ok [] else CallResult.ok [⟨[7]⟩])
        (fun _ _ => false) 1 ([] ++ ("cat", "a cat") :: [("dog", "a dog")])).outcomes =
      runPrompts
          (fun text _ => if text = "a cat" then CallResult.ok [] else CallResult.ok [⟨[7]⟩])
          (fun _ _ => false) 1 [] ++
        ("cat", ⟨1, [], [], 0, 1, ["cat"]⟩) ::
          runPrompts
            (fun text _ => if text = "a cat" then CallResult.ok [] else CallResult.ok [⟨[7]⟩])
            (fun _ _ => false) 1 [("dog", "a dog")] := by
  refine ⟨by decide, ?_⟩
  exact (claim_empty_response _ _ 1 "cat" "a cat" [] [("dog", "a dog")] (by decide)).1

/-- C4: a prompt whose provider call raises on attempts 1 and 2 and returns a
non-empty image sequence on attempt 3 counts as succeeded, and its retry loop
makes exactly 3 provider calls (no further attempts after the success). -/
theorem claim_third_attempt_success (provider : Nat → CallResult)
    (wf : Nat → String → Bool) (name : String) (ipp : Nat) (imgs : List Image)
    (h0 : provider 0 = CallResult.err) (h1 : provider 1 = CallResult.err)
    (h2 : provider 2 = CallResult.ok imgs) (hne : imgs ≠ [])
    (hwf : ∀ p, wf 2 p = false) :
    (attemptLoop provider wf name ipp 3 0).succ = 1 ∧
    (attemptLoop provider wf name ipp 3 0).fail = 0 ∧
    (attemptLoop provider wf name ipp 3 0).calls = 3 := by
  have hw : (writeImages (wf 2) name ipp imgs 0).2 = true := by
    rw [writeImages_ok (wf 2) name ipp hwf imgs 0]
  rw [attemptLoop_failFailOk provider wf name ipp imgs h0 h1 h2 hne hw]
  exact ⟨rfl, rfl, rfl⟩

/-- C4 witness: raises twice, then returns one image. -/
theorem claim_third_attempt_success_witness :
    ((fun a => if a < 2 then CallResult.err else CallResult.ok [⟨[7]⟩]) 0 = CallResult.err) ∧
    (attemptLoop (fun a => if a < 2 then CallResult.err else CallResult.ok [⟨[7]⟩])
        (fun _ _ => false) "cat" 1 3 0).succ = 1 ∧
    (attemptLoop (fun a => if a < 2 then CallResult.err else CallResult.ok [⟨[7]⟩])
        (fun _ _ => false) "cat" 1 3 0).fail = 0 ∧
    (attemptLoop (fun a => if a < 2 then CallResult.err else CallResult.ok [⟨[7]⟩])
        (fun _ _ => false) "cat" 1 3 0).calls = 3 :=
  ⟨by decide,
    claim_third_attempt_success _ _ "cat" 1 [⟨[7]⟩] (by decide) (by decide) (by decide)
      (by decide) (fun _ => rfl)⟩

/-- C5: model discovery is total and always yields a non-empty list: on a
successful listing whose imagen-filtered accumulator is non-empty the result
is that accumulator deduplicated and sorted (hence also sorted and without
duplicates); on a listing error or an empty filtered accumulator it is the
static fallback list. -/
theorem claim_model_discovery (listing : Except Unit (List (Option String))) :
    fetch_image_models listing ≠ [] ∧
    (∀ e, listing = Except.error e → fetch_image_models listing = fallbackModels) ∧
    (∀ names, listing = Except.ok names → (imagenModels names).isEmpty = true →
      fetch_image_models listing = fallbackModels) ∧
    (∀ names, listing = Except.ok names → (imagenModels names).isEmpty = false →
      fetch_image_models listing = sortedSet (imagenModels names) ∧
      List.Sorted strLe (fetch_image_models listing) ∧
      (fetch_image_models listing).Nodup) := by
  refine ⟨fetch_nonempty listing, ?_, ?_, ?_⟩
  · intro e he
    rw [he]
    rfl
  · intro names hn he
    rw [hn]
    simp [fetch_image_models, he]
  · intro names hn he
    subst hn
    refine ⟨by simp [fetch_image_models, he], ?_, ?_⟩
    · simp only [fetch_image_models, he, Bool.false_eq_true, if_false, sortedSet]
      exact List.sorted_insertionSort strLe _
    · simp only [fetch_image_models, he, Bool.false_eq_true, if_false, sortedSet]
      exact ((List.perm_insertionSort strLe _).nodup_iff).2 (List.nodup_dedup _)

/-- C5 witness: a listing with two imagen models (one duplicated, one upper
case, one `None` name, one non-imagen model). -/
theorem claim_model_discovery_witness :
    fetch_image_models (Except.ok [some "models/imagen-x", none, some "models/Imagen-a",
        some "models/gemini-pro", some "models/imagen-x"]) ≠ [] ∧
    (imagenModels [some "models/imagen-x", none, some "models/Imagen-a",
        some "models/gemini-pro", some "models/imagen-x"]).isEmpty = false ∧
    fetch_image_models (Except.ok [some "models/imagen-x", none, some "models/Imagen-a",
        some "models/gemini-pro", some "models/imagen-x"]) =
      sortedSet (imagenModels [some "models/imagen-x", none, some "models/Imagen-a",
        some "models/gemini-pro", some "models/imagen-x"]) ∧
    fetch_image_models (Except.ok [some "models/imagen-x", none, some "models/Imagen-a",
        some "models/gemini-pro", some "models/imagen-x"]) = ["Imagen-a", "imagen-x"] := by
  have h := claim_model_discovery (Except.ok [some "models/imagen-x", none,
    some "models/Imagen-a", some "models/gemini-pro", some "models/imagen-x"])
  exact ⟨h.1, by decide, (h.2.2.2 _ rfl (by decide)).1, by decide⟩

/-- C6: every file a run writes has the relative name
`imageFileName name ipp j` for some prompt `(name, text)` of the run and some
0-based image index `j` — i.e. `<promptName>_<j+1>.png` (1-based variant
index) when `variantCount > 1` and `<promptName>.png` when `variantCount = 1`
— and lives at `<outputBase>/<runTimestamp>/<that name>`; the cat/dog
scenarios produce exactly `cat.png, dog.png` (variantCount 1, report
`{2,2,0,[]}`) and `cat_1.png, cat_2.png, dog_1.png, dog_2.png`
(variantCount 2), and the run timestamp renders as `YYYY-MM-DD_HH-MM-SS`. -/
theorem claim_output_layout (provider : String → Nat → CallResult)
    (wf : Nat → String → Bool) (ipp : Nat) (prompts : List (String × String))
    (dt : DateTime) :
    (∀ w ∈ (generate_images provider wf ipp prompts).writes,
      ∃ name text j, (name, text) ∈ prompts ∧ w.1 = imageFileName name ipp j ∧
        fullPath dt w.1 = OUTPUT_BASE ++ "/" ++ formatTimestamp dt ++ "/" ++ w.1 ∧
        (ipp > 1 → w.1 = name ++ "_" ++ toString (j + 1) ++ ".png") ∧
        (ipp = 1 → w.1 = name ++ ".png")) ∧
    filesWritten (generate_images (fun _ _ => CallResult.ok [⟨[0]⟩]) (fun _ _ => false) 1
        [("cat", "a cat"), ("dog", "a dog")]).writes = ["cat.png", "dog.png"] ∧
    (generate_images (fun _ _ => CallResult.ok [⟨[0]⟩]) (fun _ _ => false) 1
        [("cat", "a cat"), ("dog", "a dog")]).report = ⟨2, 2, 0, []⟩ ∧
    filesWritten (generate_images (fun _ _ => CallResult.ok [⟨[0]⟩, ⟨[1]⟩]) (fun _ _ => false) 2
        [("cat", "a cat"), ("dog", "a dog")]).writes =
      ["cat_1.png", "cat_2.png", "dog_1.png", "dog_2.png"] ∧
    formatTimestamp ⟨2026, 1, 2, 3, 4, 5⟩ = "2026-01-02_03-04-05" := by
  refine ⟨?_, by decide, by decide, by decide, by decide⟩
  intro w hw
  simp only [generate_images] at hw
  rcases List.mem_flatMap.1 hw with ⟨o, ho, hwo⟩
  rw [runPrompts_eq_map] at ho
  rcases List.mem_map.1 ho with ⟨np, hnp, hone⟩
  rw [← hone] at hwo
  rcases attemptLoop_paths (provider np.2) wf np.1 ipp 3 0 w hwo with ⟨k, hk⟩
  refine ⟨np.1, np.2, k, by simpa using hnp, hk, rfl, ?_, ?_⟩
  · intro hgt
    rw [hk]
    simp only [imageFileName, hgt, if_true]
    apply String.ext
    simp [String.data_append]
  · intro h1
    rw [hk]
    simp [imageFileName, h1]

/-- C6 witness: the provenance clause at the concrete write `cat.png`. -/
theorem claim_output_layout_witness :
    ("cat.png", [0]) ∈ (generate_images (fun _ _ => CallResult.ok [⟨[0]⟩])
        (fun _ _ => false) 1 [("cat", "a cat"), ("dog", "a dog")]).writes ∧
    ∃ name text j, (name, text) ∈ [("cat", "a cat"), ("dog", "a dog")] ∧
      ("cat.png", ([0] : List Nat)).1 = imageFileName name 1 j ∧
      fullPath ⟨2026, 1, 2, 3, 4, 5⟩ ("cat.png", ([0] : List Nat)).1 =
        OUTPUT_BASE ++ "/" ++ formatTimestamp ⟨2026, 1, 2, 3, 4, 5⟩ ++ "/" ++
          ("cat.png", ([0] : List Nat)).1 ∧
      ((1 : Nat) > 1 → ("cat.png", ([0] : List Nat)).1 = name ++ "_" ++ toString (j + 1) ++ ".png") ∧
      ((1 : Nat) = 1 → ("cat.png", ([0] : List Nat)).1 = name ++ ".png") :=
  ⟨by decide,
    (claim_output_layout (fun _ _ => CallResult.ok [⟨[0]⟩]) (fun _ _ => false) 1
      [("cat", "a cat"), ("dog", "a dog")] ⟨2026, 1, 2, 3, 4, 5⟩).1
      ("cat.png", [0]) (by decide)⟩

/-- C7: no per-prompt outcome aborts the run: for every provider and
filesystem behaviour the run processes every prompt (the outcomes list names
each prompt once, in order), every prompt reaches exactly one terminal
outcome (`succ + fail = 1`), and the final summary is non-empty — it always
carries the `Completed:` line, even when every prompt failed. -/
theorem claim_no_abort (provider : String → Nat → CallResult)
    (wf : Nat → String → Bool) (ipp : Nat) (prompts : List (String × String))
    (d : String) :
    (generate_images provider wf ipp prompts).outcomes.map Prod.fst = prompts.map Prod.fst ∧
    (generate_images provider wf ipp prompts).outcomes.length = prompts.length ∧
    (generate_images provider wf ipp prompts).report.total = prompts.length ∧
    (∀ o ∈ (generate_images provider wf ipp prompts).outcomes, o.2.succ + o.2.fail = 1) ∧
    summaryLines (generate_images provider wf ipp prompts).report d ≠ [] := by
  refine ⟨?_, ?_, rfl, ?_, by simp [summaryLines]⟩
  · simp only [generate_images]
    rw [runPrompts_eq_map]
    simp
  · simp only [generate_images]
    rw [runPrompts_eq_map]
    simp
  · intro o ho
    simp only [generate_images] at ho
    rw [runPrompts_eq_map] at ho
    rcases List.mem_map.1 ho with ⟨np, _, hone⟩
    rw [← hone]
    exact attemptLoop_delta (provider np.2) wf np.1 ipp 3 0 (by omega) (by omega)

/-- C7 witness: an all-failing run still reports every prompt and a summary. -/
theorem claim_no_abort_witness :
    (generate_images (fun _ _ => CallResult.err) (fun _ _ => false) 1
        [("cat", "a cat"), ("dog", "a dog")]).outcomes.map Prod.fst = ["cat", "dog"] ∧
    summaryLines (generate_images (fun _ _ => CallResult.err) (fun _ _ => false) 1
        [("cat", "a cat"), ("dog", "a dog")]).report "out" ≠ [] := by
  have h := claim_no_abort (fun _ _ => CallResult.err) (fun _ _ => false) 1
    [("cat", "a cat"), ("dog", "a dog")] "out"
  exact ⟨h.1.trans (by decide), h.2.2.2.2⟩

/-- C8 counterexample: with a provider that succeeds with one image on every
attempt and a filesystem on which every write raises, the prompt's loop makes
3 provider calls, not 1 — a file-write error is caught by the same retry loop
as provider errors and consumes attempts of the 3-attempt provider budget,
contradicting the claim that persistence happens after the retry wrapper has
returned. -/
theorem claim_write_error_counterexample :
    (attemptLoop (fun _ => CallResult.ok [⟨[0]⟩]) (fun _ _ => true) "cat" 1 3 0).calls = 3 ∧
    ¬ (attemptLoop (fun _ => CallResult.ok [⟨[0]⟩]) (fun _ _ => true) "cat" 1 3 0).calls = 1 := by
  decide

/-- C8 (amended): a failure to create or write a per-image file is caught by
the per-prompt retry loop itself: it consumes an attempt of the 3-attempt
provider budget and triggers a fresh provider invocation.  When the first
image's write raises on every attempt (and the provider keeps succeeding with
a non-empty image list), the prompt makes 3 provider calls, sleeps `[3, 6]`,
is logged as a per-prompt failure with its name recorded, and the remaining
prompts are processed unchanged (the run is not aborted). -/
theorem claim_write_error_retried (provider : String → Nat → CallResult)
    (wf : Nat → String → Bool) (ipp : Nat) (name text : String) (imgs : List Image)
    (pre post : List (String × String))
    (hok : ∀ a, provider text a = CallResult.ok imgs) (hne : imgs ≠ [])
    (hwf : ∀ a, wf a (imageFileName name ipp 0) = true) :
    (generate_images provider wf ipp (pre ++ (name, text) :: post)).outcomes =
      runPrompts provider wf ipp pre ++
        (name, ⟨3, [3, 6], [], 0, 1, [name]⟩) :: runPrompts provider wf ipp post := by
  have hmid := attemptLoop_writeFail (provider text) wf name ipp imgs hok hne hwf
  have houts : runPrompts provider wf ipp (pre ++ (name, text) :: post) =
      runPrompts provider wf ipp pre ++
        (name, ⟨3, [3, 6], [], 0, 1, [name]⟩) :: runPrompts provider wf ipp post := by
    rw [runPrompts_append, runPrompts, hmid]
  simpa [generate_images] using houts

/-- C8 witness: always-succeeding provider, always-raising filesystem, one
further prompt after the affected one. -/
theorem claim_write_error_retried_witness :
    ((fun (_ : String) (_ : Nat) => CallResult.ok [⟨[0]⟩]) "a cat" 0 =
      CallResult.ok [⟨[0]⟩]) ∧
    (generate_images (fun _ _ => CallResult.ok [⟨[0]⟩]) (fun _ _ => true) 1
        ([] ++ ("cat", "a cat") :: [("dog", "a dog")])).outcomes =
      runPrompts (fun _ _ => CallResult.ok [⟨[0]⟩]) (fun _ _ => true) 1 [] ++
        ("cat", ⟨3, [3, 6], [], 0, 1, ["cat"]⟩) ::
          runPrompts (fun _ _ => CallResult.ok [⟨[0]⟩]) (fun _ _ => true) 1
            [("dog", "a dog")] :=
  ⟨rfl,
    claim_write_error_retried (fun _ _ => CallResult.ok [⟨[0]⟩]) (fun _ _ => true) 1
      "cat" "a cat" [⟨[0]⟩] [] [("dog", "a dog")] (fun _ => rfl) (by decide) (fun _ => rfl)⟩

/-- C9: the run is a deterministic function of prompts, variant count,
provider responses and filesystem behaviour; two runs of the same inputs at
two different second-resolution start instants write into two different
output directories, their absolute file paths are disjoint, and both runs are
the images of one and the same list of run-relative file contents under their
respective directory roots. -/
theorem claim_two_runs (provider : String → Nat → CallResult)
    (wf : Nat → String → Bool) (ipp : Nat) (prompts : List (String × String))
    (dt1 dt2 : DateTime)
    (hy1 : dt1.year < 10000) (hmo1 : dt1.month < 100) (hd1 : dt1.day < 100)
    (hh1 : dt1.hour < 100) (hmi1 : dt1.minute < 100) (hs1 : dt1.second < 100)
    (hy2 : dt2.year < 10000) (hmo2 : dt2.month < 100) (hd2 : dt2.day < 100)
    (hh2 : dt2.hour < 100) (hmi2 : dt2.minute < 100) (hs2 : dt2.second < 100)
    (hne : dt1 ≠ dt2) :
    outputDir dt1 ≠ outputDir dt2 ∧
    (∀ w1 ∈ runWithTimestamp dt1 provider wf ipp prompts,
      ∀ w2 ∈ runWithTimestamp dt2 provider wf ipp prompts, w1.1 ≠ w2.1) ∧
    ∃ rel : List (String × List Nat),
      runWithTimestamp dt1 provider wf ipp prompts =
        rel.map (fun w => (fullPath dt1 w.1, w.2)) ∧
      runWithTimestamp dt2 provider wf ipp prompts =
        rel.map (fun w => (fullPath dt2 w.1, w.2)) := by
  have hts : formatTimestamp dt1 ≠ formatTimestamp dt2 := by
    intro h
    exact hne (fmt_inj dt1 dt2 hy1 hmo1 hd1 hh1 hmi1 hs1 hy2 hmo2 hd2 hh2 hmi2 hs2
      (congrArg String.data h))
  refine ⟨?_, ?_, ⟨(generate_images provider wf ipp prompts).writes, rfl, rfl⟩⟩
  · intro h
    apply hts
    have hd := congrArg String.data h
    simp only [outputDir, String.data_append, List.append_assoc] at hd
    have hc1 := List.append_cancel_left hd
    have hc2 := List.append_cancel_left hc1
    exact String.ext hc2
  · intro w1 hw1 w2 hw2
    rcases List.mem_map.1 hw1 with ⟨a, _, ha⟩
    rcases List.mem_map.1 hw2 with ⟨b, _, hb⟩
    rw [← ha, ← hb]
    exact fullPath_disjoint dt1 dt2 a.1 b.1 hts

/-- C9 witness: two instants one second apart give distinct directories. -/
theorem claim_two_runs_witness :
    (⟨2026, 1, 2, 3, 4, 5⟩ : DateTime) ≠ ⟨2026, 1, 2, 3, 4, 6⟩ ∧
    outputDir ⟨2026, 1, 2, 3, 4, 5⟩ ≠ outputDir ⟨2026, 1, 2, 3, 4, 6⟩ := by
  have h := claim_two_runs (fun _ _ => CallResult.err) (fun _ _ => false) 1
    [("cat", "a cat")] ⟨2026, 1, 2, 3, 4, 5⟩ ⟨2026, 1, 2, 3, 4, 6⟩
    (by decide) (by decide) (by decide) (by decide) (by decide) (by decide)
    (by decide) (by decide) (by decide) (by decide) (by decide) (by decide)
    (by decide)
  exact ⟨by decide, h.1⟩

/-- C10 (implicit): when `variantCount = 1` but the provider's successful
response carries several images, every image is written to the same relative
path `<name>.png` (the suffix is chosen by `variantCount`, not by the number
of images returned), each later image overwrites the earlier one so exactly
one file remains with the last image's bytes, and the prompt still counts as
a single success after a single provider call. -/
theorem claim_variant_overflow (provider : Nat → CallResult)
    (wf : Nat → String → Bool) (name : String) (imgs : List Image)
    (h0 : provider 0 = CallResult.ok imgs) (hne : imgs ≠ [])
    (hwf : ∀ a p, wf a p = false) :
    (attemptLoop provider wf name 1 3 0).writes =
      imgs.map (fun img => (name ++ ".png", img.bytes)) ∧
    filesWritten (attemptLoop provider wf name 1 3 0).writes = [name ++ ".png"] ∧
    lastWrite (attemptLoop provider wf name 1 3 0).writes (name ++ ".png") =
      imgs.getLast?.map Image.bytes ∧
    (attemptLoop provider wf name 1 3 0).succ = 1 ∧
    (attemptLoop provider wf name 1 3 0).fail = 0 ∧
    (attemptLoop provider wf name 1 3 0).calls = 1 := by
  have hw := writeImages_ipp1 (wf 0) name (fun p => hwf 0 p) imgs 0
  have hok := attemptLoop_okFirst provider wf name 1 imgs h0 hne (by rw [hw])
  have hok2 : attemptLoop provider wf name 1 3 0 =
      ⟨1, [], imgs.map (fun img => (name ++ ".png", img.bytes)), 1, 0, []⟩ := by
    rw [hok, hw]
  rw [hok2]
  have hfst : (imgs.map fun img => (name ++ ".png", img.bytes)).map Prod.fst =
      imgs.map fun _ => name ++ ".png" := by
    rw [List.map_map]
    exact List.map_congr_left (fun a _ => rfl)
  refine ⟨rfl, ?_, lastWrite_const (name ++ ".png") imgs, rfl, rfl, rfl⟩
  show filesWritten (imgs.map fun img => (name ++ ".png", img.bytes)) = [name ++ ".png"]
  rw [filesWritten, hfst]
  exact dedup_const_map (name ++ ".png") imgs hne

/-- C10 witness: two images returned for `variantCount = 1`. -/
theorem claim_variant_overflow_witness :
    ((fun (_ : Nat) => CallResult.ok [⟨[1]⟩, ⟨[2]⟩]) 0 = CallResult.ok [⟨[1]⟩, ⟨[2]⟩]) ∧
    (attemptLoop (fun _ => CallResult.ok [⟨[1]⟩, ⟨[2]⟩]) (fun _ _ => false) "cat" 1 3 0).writes =
      [("cat.png", [1]), ("cat.png", [2])] ∧
    filesWritten (attemptLoop (fun _ => CallResult.ok [⟨[1]⟩, ⟨[2]⟩])
        (fun _ _ => false) "cat" 1 3 0).writes = ["cat.png"] ∧
    lastWrite (attemptLoop (fun _ => CallResult.ok [⟨[1]⟩, ⟨[2]⟩])
        (fun _ _ => false) "cat" 1 3 0).writes "cat.png" = some [2] := by
  have h := claim_variant_overflow (fun _ => CallResult.ok [⟨[1]⟩, ⟨[2]⟩])
    (fun _ _ => false) "cat" [⟨[1]⟩, ⟨[2]⟩] rfl (by decide) (fun _ _ => rfl)
  exact ⟨rfl, h.1.trans (by decide), h.2.1, (h.2.2.1).trans (by decide)⟩

end MassImageGen
